import Mathlib

/-!
Shallow embedding of the browser client `src/client/app.js` of the
aws-bedrock-document-chat repository, and proofs about its streaming
response assembler, citation renderer, and error handling.

Modelling conventions:
- `marked.parse` and `Prism.highlightElement` are external libraries; the
  markdown formatter is carried as an abstract parameter `md : String → String`
  and syntax highlighting is a DOM no-op.
- `JSON.parse` is embedded as an executable JSON parser over `List Char`
  (objects, arrays, strings with escapes, numbers kept as raw literals,
  booleans, null); an input it cannot consume entirely maps to `none`,
  mirroring the thrown `SyntaxError`.
- The DOM is a heap of message nodes plus the ordered list of node ids
  attached to the messages container; mutating a detached node is possible
  but invisible, exactly as for a removed element in the browser.
- JavaScript truthiness of the string-valued fields used by the code
  (empty string falsy) is embedded explicitly.
-/

namespace BedrockChat

/-! ### Generic list and string helpers -/

/-- Concatenation of a list of strings, in order. -/
def joinAll : List String → String
  | [] => ""
  | s :: ss => s ++ joinAll ss

/-- Embeds JavaScript array joining with a separator string. -/
def joinSep (sep : String) : List String → String
  | [] => ""
  | [x] => x
  | x :: xs => x ++ sep ++ joinSep sep xs

/-- Embeds `Array.prototype.map((x, index) => ...)` with a running index. -/
def mapIdxFrom (f : Nat → α → β) (k : Nat) : List α → List β
  | [] => []
  | x :: xs => f k x :: mapIdxFrom f (k + 1) xs

/-- Embeds JavaScript `String.prototype.split(sep)` for a one-character
separator: splitting `"a\nb"` gives `["a","b"]`, `"a\n"` gives `["a",""]`,
`""` gives `[""]`. -/
def splitCh (sep : Char) : List Char → List (List Char)
  | [] => [[]]
  | c :: rest =>
    if c = sep then [] :: splitCh sep rest
    else
      match splitCh sep rest with
      | [] => [[c]]
      | h :: t => (c :: h) :: t

/-! ### JSON values and a JSON parser (embedding `JSON.parse`)

Numbers are kept as their raw literal text: the client never reads a numeric
field out of a parsed frame, it only needs numbers not to break parsing. -/

inductive Json where
  | null : Json
  | bool (b : Bool) : Json
  | num (raw : String) : Json
  | str (s : String) : Json
  | arr (elems : List Json) : Json
  | obj (fields : List (String × Json)) : Json

/-- JSON whitespace skipping. -/
def skipWs : List Char → List Char
  | [] => []
  | c :: r => if c = ' ' ∨ c = '\n' ∨ c = '\t' ∨ c = '\r' then skipWs r else c :: r

def hexDigitVal (c : Char) : Option Nat :=
  if '0' ≤ c ∧ c ≤ '9' then some (c.toNat - 48)
  else if 'a' ≤ c ∧ c ≤ 'f' then some (c.toNat - 87)
  else if 'A' ≤ c ∧ c ≤ 'F' then some (c.toNat - 55)
  else none

/-- Single-character JSON string escapes. -/
def escChar (e : Char) : Option Char :=
  if e = '"' then some '"'
  else if e = '\\' then some '\\'
  else if e = '/' then some '/'
  else if e = 'b' then some (Char.ofNat 8)
  else if e = 'f' then some (Char.ofNat 12)
  else if e = 'n' then some '\n'
  else if e = 'r' then some '\r'
  else if e = 't' then some '\t'
  else none

/-- Parses the body of a JSON string after the opening quote; returns the
decoded characters and the remainder after the closing quote. -/
def parseStrBody : List Char → Option (List Char × List Char)
  | [] => none
  | c :: rest =>
    if c = '"' then some ([], rest)
    else if c = '\\' then
      match rest with
      | [] => none
      | e :: r2 =>
        if e = 'u' then
          match r2 with
          | a :: b :: c2 :: d :: r3 =>
            match hexDigitVal a, hexDigitVal b, hexDigitVal c2, hexDigitVal d with
            | some ha, some hb, some hc, some hd =>
              (parseStrBody r3).map (fun p => (Char.ofNat (((ha * 16 + hb) * 16 + hc) * 16 + hd) :: p.1, p.2))
            | _, _, _, _ => none
          | _ => none
        else
          match escChar e with
          | some ce => (parseStrBody r2).map (fun p => (ce :: p.1, p.2))
          | none => none
    else if c.toNat < 32 then none
    else (parseStrBody rest).map (fun p => (c :: p.1, p.2))

def isDigitCh (c : Char) : Bool := '0' ≤ c && c ≤ '9'

def digitSpan : List Char → (List Char × List Char)
  | [] => ([], [])
  | c :: r =>
    if isDigitCh c then
      let p := digitSpan r
      (c :: p.1, p.2)
    else ([], c :: r)

def parseFracPart : List Char → Option (List Char × List Char)
  | '.' :: r =>
    let p := digitSpan r
    if p.1.isEmpty then none else some ('.' :: p.1, p.2)
  | cs => some ([], cs)

def parseExpPart : List Char → Option (List Char × List Char)
  | [] => some ([], [])
  | c :: r =>
    if c = 'e' ∨ c = 'E' then
      let sp : List Char × List Char :=
        match r with
        | '+' :: r2 => (['+'], r2)
        | '-' :: r2 => (['-'], r2)
        | _ => ([], r)
      let p := digitSpan sp.2
      if p.1.isEmpty then none else some (c :: sp.1 ++ p.1, p.2)
    else some ([], c :: r)

/-- Parses a JSON number, returning its raw literal characters. -/
def parseNum (cs : List Char) : Option (List Char × List Char) :=
  let sg : List Char × List Char :=
    match cs with
    | '-' :: r => (['-'], r)
    | _ => ([], cs)
  let di := digitSpan sg.2
  if di.1.isEmpty then none
  else
    match parseFracPart di.2 with
    | none => none
    | some fr =>
      match parseExpPart fr.2 with
      | none => none
      | some ex => some (sg.1 ++ di.1 ++ fr.1 ++ ex.1, ex.2)

mutual

/-- Recursive-descent JSON value parser; the fuel bounds nesting and is
decremented on every nested call, `Json.parse` supplies more than enough. -/
def parseValue : Nat → List Char → Option (Json × List Char)
  | 0, _ => none
  | Nat.succ fuel, cs0 =>
    match skipWs cs0 with
    | [] => none
    | c :: rest =>
      if c = '"' then (parseStrBody rest).map (fun p => (Json.str (String.mk p.1), p.2))
      else if c = '\x7b' then
        match skipWs rest with
        | '\x7d' :: r => some (Json.obj [], r)
        | cs2 => (parseMembers fuel cs2).map (fun p => (Json.obj p.1, p.2))
      else if c = '[' then
        match skipWs rest with
        | ']' :: r => some (Json.arr [], r)
        | cs2 => (parseElems fuel cs2).map (fun p => (Json.arr p.1, p.2))
      else
        match c :: rest with
        | 't' :: 'r' :: 'u' :: 'e' :: r => some (Json.bool true, r)
        | 'f' :: 'a' :: 'l' :: 's' :: 'e' :: r => some (Json.bool false, r)
        | 'n' :: 'u' :: 'l' :: 'l' :: r => some (Json.null, r)
        | cs => (parseNum cs).map (fun p => (Json.num (String.mk p.1), p.2))

/-- Parses one or more `"key": value` members followed by `}`. -/
def parseMembers : Nat → List Char → Option (List (String × Json) × List Char)
  | 0, _ => none
  | Nat.succ fuel, cs =>
    match skipWs cs with
    | '"' :: rest =>
      match parseStrBody rest with
      | none => none
      | some (key, r1) =>
        match skipWs r1 with
        | ':' :: r2 =>
          match parseValue fuel r2 with
          | none => none
          | some (v, r3) =>
            match skipWs r3 with
            | ',' :: r4 => (parseMembers fuel r4).map (fun p => ((String.mk key, v) :: p.1, p.2))
            | '\x7d' :: r4 => some ([(String.mk key, v)], r4)
            | _ => none
        | _ => none
    | _ => none

/-- Parses one or more array elements followed by `]`. -/
def parseElems : Nat → List Char → Option (List Json × List Char)
  | 0, _ => none
  | Nat.succ fuel, cs =>
    match parseValue fuel cs with
    | none => none
    | some (v, r1) =>
      match skipWs r1 with
      | ',' :: r2 => (parseElems fuel r2).map (fun p => (v :: p.1, p.2))
      | ']' :: r2 => some ([v], r2)
      | _ => none

end

/-- Embeds `JSON.parse`: the whole input must be consumed (up to trailing
whitespace), otherwise the parse fails. -/
def Json.parse (s : String) : Option Json :=
  match parseValue (s.data.length + 1) s.data with
  | some (j, rest) =>
    match skipWs rest with
    | [] => some j
    | _ => none
  | none => none

/-- Field lookup on a parsed JSON object (`data.field`); for duplicate keys
`JSON.parse` keeps the last occurrence. A non-object has no fields
(`undefined`, embedded as `none`). -/
def getField (j : Json) (key : String) : Option Json :=
  match j with
  | Json.obj fs => findLastField fs key
  | _ => none
where
  findLastField : List (String × Json) → String → Option Json
    | [], _ => none
    | (k, v) :: rest, key =>
      match findLastField rest key with
      | some r => some r
      | none => if k = key then some v else none

/-- JavaScript truthiness of a JSON value. -/
def jsTruthy : Json → Bool
  | Json.null => false
  | Json.bool b => b
  | Json.str s => s != ""
  | Json.num raw => raw.data.any (fun c => isDigitCh c && c != '0')
  | Json.arr _ => true
  | Json.obj _ => true

mutual

/-- JavaScript string coercion `String(v)` of a JSON value (approximate on
arrays and objects, which the client never coerces). -/
def jsStringOf : Json → String
  | Json.null => "null"
  | Json.bool b => if b then "true" else "false"
  | Json.num raw => raw
  | Json.str s => s
  | Json.arr xs => jsStringList xs
  | Json.obj _ => "[object Object]"

def jsStringList : List Json → String
  | [] => ""
  | [x] => jsStringOf x
  | x :: xs => jsStringOf x ++ "," ++ jsStringList xs

end

/-- String-valued field access: `v.key` when it holds a string. -/
def getStrField (j : Json) (key : String) : Option String :=
  match getField j key with
  | some (Json.str s) => some s
  | _ => none

end BedrockChat

namespace BedrockChat

/-! ### Sources and server-sent events (`src/client/app.js` lines 479-529) -/

/-- A retrieval source as the client reads it from a frame: the fields
`source`, `url`, `title`, `author` accessed on each element of
`data.sources`. -/
structure Source where
  source : Option String
  url : Option String
  title : Option String
  author : Option String
deriving DecidableEq, Repr

def sourceOfJson (v : Json) : Source :=
  { source := getStrField v "source"
    url := getStrField v "url"
    title := getStrField v "title"
    author := getStrField v "author" }

/-- Embeds `data.sources || []` followed by elementwise field access. -/
def sourcesOfJson (j : Json) : List Source :=
  match getField j "sources" with
  | some (Json.arr xs) => xs.map sourceOfJson
  | _ => []

/-- The three recognized frame payloads, plus `other` for any payload whose
`type` matches none of the three dispatch branches. -/
inductive SSEEvent where
  | metadata (sources : List Source) : SSEEvent
  | content (text : String) : SSEEvent
  | error (message : String) : SSEEvent
  | other : SSEEvent
deriving DecidableEq, Repr

/-- Dispatch on `data.type` (lines 484, 492, 522). An absent `text` field
appended by `+=` coerces to the string `undefined`. -/
def eventOfJson (j : Json) : SSEEvent :=
  match getField j "type" with
  | some (Json.str t) =>
    if t = "metadata" then SSEEvent.metadata (sourcesOfJson j)
    else if t = "content" then
      SSEEvent.content (match getField j "text" with
        | some v => jsStringOf v
        | none => "undefined")
    else if t = "error" then
      SSEEvent.error (match getField j "message" with
        | some v => jsStringOf v
        | none => "")
    else SSEEvent.other
  | _ => SSEEvent.other

/-- The `line.startsWith('data: ')` marker test (line 480). -/
def isDataLine : List Char → Bool
  | 'd' :: 'a' :: 't' :: 'a' :: ':' :: ' ' :: _ => true
  | _ => false

/-- Decodes one line of the stream: lines without the `data: ` marker carry
no event, a marker-prefixed line is `JSON.parse`d (`line.slice(6)`) and an
unparseable one carries no event either (the catch at line 525 only logs). -/
def lineEvent (l : List Char) : Option SSEEvent :=
  if isDataLine l then
    match Json.parse (String.mk (l.drop 6)) with
    | some j => some (eventOfJson j)
    | none => none
  else none

/-! ### Citation renderer (`addInlineCitations`, lines 266-291) -/

/-- JavaScript truthiness of an optional string-valued field: absent
(`undefined`) and the empty string are falsy. -/
def jsTruthyOpt : Option String → Bool
  | none => false
  | some s => s != ""

/-- Embeds `source.source.startsWith('http')`. -/
def strHasHttp (s : String) : Bool :=
  match s.data with
  | 'h' :: 't' :: 't' :: 'p' :: _ => true
  | _ => false

/-- The link test at line 277: `source.url || (source.source && source.source.startsWith('http'))`. -/
def sourceIsLink (s : Source) : Bool :=
  jsTruthyOpt s.url || (jsTruthyOpt s.source && strHasHttp (s.source.getD ""))

/-- Line 278: `const url = source.url || source.source`. -/
def hrefOf (s : Source) : String :=
  if jsTruthyOpt s.url then s.url.getD "" else s.source.getD ""

/-- Embeds `s.split('/').pop()`. -/
def lastSegOf (s : String) : String :=
  String.mk ((splitCh '/' s.data).getLastD [])

/-- Line 279: `const title = source.title || source.source?.split('/').pop() || 'Source'`. -/
def titleOf (s : Source) : String :=
  if jsTruthyOpt s.title then s.title.getD ""
  else
    match s.source with
    | some src => let p := lastSegOf src; if p != "" then p else "Source"
    | none => "Source"

/-- The bracketed citation number `[n]`. -/
def markerText (n : Nat) : String := "[" ++ Nat.repr n ++ "]"

/-- The opening `<a ...>` tag of a citation link (line 280). -/
def linkOpenHtml (s : Source) : String :=
  "<a href=\"" ++ hrefOf s ++ "\" target=\"_blank\" rel=\"noopener noreferrer\" class=\"citation-link\" title=\"" ++ titleOf s ++ "\">"

/-- One citation marker (lines 275-283): a link for URL-shaped sources,
otherwise a plain bracketed number; `citationNumber = index + 1`. -/
def citationMarkerHtml (index : Nat) (s : Source) : String :=
  if sourceIsLink s then linkOpenHtml s ++ markerText (index + 1) ++ "</a>"
  else "<span class=\"citation-number\">" ++ markerText (index + 1) ++ "</span>"

/-- The `sources.map((source, index) => ...)` marker list. -/
def citationMarkers (sources : List Source) : List String :=
  mapIdxFrom citationMarkerHtml 0 sources

/-- Embeds `addInlineCitations(content, sources)` (lines 266-291): empty or
missing source list returns the content unchanged; otherwise the markers are
joined with spaces and appended once, after the content. -/
def addInlineCitations (content : String) (sources : List Source) : String :=
  if sources.isEmpty then content
  else
    let citationsHtml := joinSep " " (citationMarkers sources)
    if citationsHtml = "" then content
    else content ++ " " ++ citationsHtml

/-- The html written to the response container on a streaming content event
(lines 507-510): markdown formatting then citation appending. -/
def streamingContentHtml (md : String → String) (fullResponse : String) (sources : List Source) : String :=
  addInlineCitations (md fullResponse) sources

/-- The html of the message appended on the non-streaming path
(lines 422-423): markdown formatting then citation appending. -/
def regularResponseHtml (md : String → String) (answer : String) (sources : List Source) : String :=
  addInlineCitations (md answer) sources

end BedrockChat

namespace BedrockChat

/-! ### DOM model

A message node lives in a heap (`nodes`); `children` is the ordered list of
node ids attached to the messages container. Removing a node or replacing
the container contents only detaches ids; writes to a detached node still
update the heap but are not visible. -/

structure DomNode where
  id : Nat
  role : String
  html : String
deriving DecidableEq, Repr

structure Dom where
  nodes : List DomNode
  children : List Nat
  nextId : Nat
  welcome : Bool
  sourcesVisible : Bool
  sourcesItems : List Source
deriving DecidableEq, Repr

/-- The fresh page: empty container showing the welcome markup, hidden
source panel. -/
def initialDom : Dom :=
  { nodes := [], children := [], nextId := 0, welcome := true
    sourcesVisible := false, sourcesItems := [] }

/-- Embeds `addMessage(content, type, ...)` (lines 218-249): removes the
welcome message, appends a node, returns (new dom, id of the node). -/
def addMessageModel (d : Dom) (role content : String) : Dom × Nat :=
  ({ d with
      nodes := d.nodes ++ [{ id := d.nextId, role := role, html := content }]
      children := d.children ++ [d.nextId]
      nextId := d.nextId + 1
      welcome := false }, d.nextId)

/-- Embeds `node.parentElement.remove()`: detaches the id; the node object
survives in the heap. -/
def removeChild (d : Dom) (i : Nat) : Dom :=
  { d with children := d.children.filter (fun j => j != i) }

/-- Embeds the `loadingDiv && loadingDiv.parentElement` guard: the node is
attached to the container. -/
def nodeAttached (d : Dom) (i : Nat) : Bool := d.children.contains i

/-- Embeds `node.innerHTML = h`: updates the heap whether or not the node is
attached. -/
def setNodeHtml (d : Dom) (i : Nat) (h : String) : Dom :=
  { d with nodes := d.nodes.map (fun n => if n.id == i then { n with html := h } else n) }

/-- The html currently stored on node `i`, attached or not. -/
def heapHtml (d : Dom) (i : Nat) : Option String :=
  (d.nodes.find? (fun n => n.id == i)).map (fun n => n.html)

/-- The htmls the user can see in the messages container, in order. -/
def visibleHtmls (d : Dom) : List String :=
  d.children.filterMap (fun i => heapHtml d i)

/-- The markup of the loading indicator bubble (`createLoadingMessage`,
lines 251-260; whitespace condensed). -/
def loadingDotsHtml : String :=
  "<div class=\"loading-dots\"><span></span><span></span><span></span></div>"

/-- Embeds `displaySourcesWithReferences(sources)` (lines 293-361) at the
panel level: an empty list hides the panel (leaving the stale items), a
non-empty list shows it and rebuilds the item list. -/
def displaySourcesWithReferences (sources : List Source) (d : Dom) : Dom :=
  if sources.isEmpty then { d with sourcesVisible := false }
  else { d with sourcesVisible := true, sourcesItems := sources }

/-! ### Streaming send operation (`sendStreamingMessage`, lines 443-545) -/

structure ChatMsg where
  role : String
  content : String
deriving DecidableEq, Repr

/-- The local variables of one in-flight `sendStreamingMessage` call. -/
structure StreamCycle where
  fullResponse : String
  sources : List Source
  responseDiv : Option Nat
  hasCreatedResponseDiv : Bool
  loadingId : Nat
deriving DecidableEq, Repr

/-- The page (dom and the global `messages` history) together with the
in-flight cycle locals. -/
structure StreamSt where
  dom : Dom
  messages : List ChatMsg
  cyc : StreamCycle
deriving DecidableEq, Repr

/-- The `data.type === 'metadata'` branch (lines 484-491): store the
sources; replace the loading bubble by an empty response container only if
no container exists yet and the loading bubble is still attached. -/
def metadataStep (st : StreamSt) (srcs : List Source) : StreamSt :=
  let cyc1 := { st.cyc with sources := srcs }
  if !cyc1.hasCreatedResponseDiv && nodeAttached st.dom cyc1.loadingId then
    let d0 := removeChild st.dom cyc1.loadingId
    let p := addMessageModel d0 "assistant" ""
    { dom := p.1, messages := st.messages
      cyc := { cyc1 with responseDiv := some p.2, hasCreatedResponseDiv := true } }
  else { st with cyc := cyc1 }

/-- The one-time response container creation inside the content branch
(lines 494-500). -/
def contentCreate (st : StreamSt) : Dom × StreamCycle :=
  if st.cyc.hasCreatedResponseDiv then (st.dom, st.cyc)
  else
    let d0 := if nodeAttached st.dom st.cyc.loadingId then removeChild st.dom st.cyc.loadingId else st.dom
    let p := addMessageModel d0 "assistant" ""
    (p.1, { st.cyc with responseDiv := some p.2, hasCreatedResponseDiv := true })

/-- The `data.type === 'content'` branch (lines 492-521): create the
container once, append the delta to `fullResponse`, re-render the container
html from the full current state. -/
def contentStep (md : String → String) (st : StreamSt) (t : String) : StreamSt :=
  let dc := contentCreate st
  let full := dc.2.fullResponse ++ t
  let d2 :=
    match dc.2.responseDiv with
    | some rid => setNodeHtml dc.1 rid (streamingContentHtml md full dc.2.sources)
    | none => dc.1
  { dom := d2, messages := st.messages, cyc := { dc.2 with fullResponse := full } }

/-- One decoded event applied to the state. The `error` branch throws
`new Error(data.message)`, but that throw happens inside the same `try`
whose `catch` (line 525) only logs, so its net effect on the state is
nothing and the loop continues. -/
def handleEvent (md : String → String) (st : StreamSt) : SSEEvent → StreamSt
  | SSEEvent.metadata srcs => metadataStep st srcs
  | SSEEvent.content t => contentStep md st t
  | SSEEvent.error _ => st
  | SSEEvent.other => st

/-- One line of the stream applied to the state (lines 479-528). -/
def handleLine (md : String → String) (st : StreamSt) (l : List Char) : StreamSt :=
  match lineEvent l with
  | some ev => handleEvent md st ev
  | none => st

/-- The `for (const line of lines)` loop over a line list. -/
def runLines (md : String → String) (st : StreamSt) (ls : List (List Char)) : StreamSt :=
  ls.foldl (handleLine md) st

/-- One transport chunk (lines 476-477): decode, split on newlines, process
each line. There is no carry-over buffer between chunks. -/
def runChunk (md : String → String) (st : StreamSt) (c : String) : StreamSt :=
  runLines md st (splitCh '\n' c.data)

/-- The `while (true) ... reader.read()` loop over the arriving chunks. -/
def runChunks (md : String → String) (st : StreamSt) (cs : List String) : StreamSt :=
  cs.foldl (runChunk md) st

/-- The string `chunkOfLines g` is the byte stream of the newline-terminated
lines of `g`, delivered as one transport chunk. -/
def chunkOfLines (g : List (List Char)) : String :=
  String.mk ((g.map (fun l => l ++ ['\n'])).flatten)

/-- Embeds `startNewChat` (lines 185-191) on the page: fresh history, the
container replaced by the welcome markup (detaching every node), source list
cleared and hidden. -/
def newChatDom (d : Dom) : Dom :=
  { d with children := [], welcome := true, sourcesVisible := false, sourcesItems := [] }

def applyNewChat (st : StreamSt) : StreamSt :=
  { st with dom := newChatDom st.dom, messages := [] }

/-- What can happen between two `reader.read()` results while a stream is in
flight: the next chunk arrives, or the user starts a new chat. -/
inductive StreamStep where
  | chunk (c : String) : StreamStep
  | newChat : StreamStep
deriving DecidableEq, Repr

def runSteps (md : String → String) (st : StreamSt) (steps : List StreamStep) : StreamSt :=
  steps.foldl
    (fun st step =>
      match step with
      | StreamStep.chunk c => runChunk md st c
      | StreamStep.newChat => applyNewChat st)
    st

/-- The start of `sendStreamingMessage` after a 2xx response: show the
loading bubble and initialize the cycle locals (lines 444-449). -/
def initStream (d : Dom) (msgs : List ChatMsg) : StreamSt :=
  let p := addMessageModel d "assistant" loadingDotsHtml
  { dom := p.1, messages := msgs
    cyc := { fullResponse := "", sources := [], responseDiv := none
             hasCreatedResponseDiv := false, loadingId := p.2 } }

/-- The end of the read loop (lines 532-536): display the sources and push
the accumulated text to the history. Reached whenever the transport ends,
because the inner catch keeps every per-line failure from escaping. -/
def finishStream (st : StreamSt) : StreamSt :=
  { st with
      dom := displaySourcesWithReferences st.cyc.sources st.dom
      messages := st.messages ++ [{ role := "assistant", content := st.cyc.fullResponse }] }

/-- A whole streaming send with a 2xx response: init, read loop (with
possible interleaved new-chat clicks), then the trailing source display and
history push. -/
def sendStreamingOk (md : String → String) (d : Dom) (msgs : List ChatMsg)
    (steps : List StreamStep) : StreamSt :=
  finishStream (runSteps md (initStream d msgs) steps)

/-- The streaming non-2xx path (lines 465-467): the thrown message is the
generic text, independent of the response body. -/
def streamingFetchErrorText (_body : Json) : String := "Failed to get response"

/-- The non-streaming non-2xx path (lines 411-414):
`error.detail || 'Failed to get response'` on the parsed body. -/
def regularErrorText (body : Json) : String :=
  match getField body "detail" with
  | some v => if jsTruthy v then jsStringOf v else "Failed to get response"
  | none => "Failed to get response"

/-- Both catch handlers display the caught message with an `Error: ` bubble
(lines 439 and 543). -/
def catchBubbleText (message : String) : String := "Error: " ++ message

/-! ### Non-streaming send operation (`sendRegularMessage`, lines 394-441) -/

structure PageSt where
  dom : Dom
  messages : List ChatMsg
deriving DecidableEq, Repr

def initialPage : PageSt := { dom := initialDom, messages := [] }

/-- A whole non-streaming send with a 2xx response: loading bubble, remove
it, append the rendered answer, display sources, store the raw answer in the
history. -/
def sendRegularOk (md : String → String) (p : PageSt) (answer : String)
    (sources : List Source) : PageSt :=
  let l := addMessageModel p.dom "assistant" loadingDotsHtml
  let d1 := removeChild l.1 l.2
  let a := addMessageModel d1 "assistant" (regularResponseHtml md answer sources)
  let d2 := displaySourcesWithReferences sources a.1
  { dom := d2, messages := p.messages ++ [{ role := "assistant", content := answer }] }

/-- The identity markdown formatter, used to evaluate the model at concrete
inputs. -/
def mdId : String → String := fun s => s

/-! ### Concrete stream inputs used to evaluate the model -/

/-- An error frame line carrying the message `boom`. -/
def errorFrameLine : String := "data: \x7b\"type\":\"error\",\"message\":\"boom\"\x7d"

/-- Three frames in one chunk: a content delta `Hel`, an error frame
`boom`, then a content delta `lo`. -/
def errorAfterPartialChunk : String :=
  "data: \x7b\"type\":\"content\",\"text\":\"Hel\"\x7d\n" ++
  (errorFrameLine ++ "\n") ++
  "data: \x7b\"type\":\"content\",\"text\":\"lo\"\x7d\n"

/-- A complete content frame line carrying the delta `Hello`. -/
def helloFrameLine : String := "data: \x7b\"type\":\"content\",\"text\":\"Hello\"\x7d"

/-- The first part of `helloFrameLine` when the transport splits it in the
middle of the line. -/
def helloSplitA : String := "data: \x7b\"type\":\"content\",\"te"

/-- The rest of `helloFrameLine` (and the line terminator) after the
mid-line split. -/
def helloSplitB : String := "xt\":\"Hello\"\x7d\n"

/-- One chunk holding the newline-terminated `helloFrameLine`. -/
def helloChunk : String := helloFrameLine ++ "\n"

/-- A content frame line carrying the delta `Hel`. -/
def helFrameLine : String := "data: \x7b\"type\":\"content\",\"text\":\"Hel\"\x7d"

/-- A content frame line carrying the delta `lo`. -/
def loFrameLine : String := "data: \x7b\"type\":\"content\",\"text\":\"lo\"\x7d"

/-- A marker-prefixed line whose payload is not valid JSON. -/
def malformedLine : String := "data: \x7bnot json"

/-- A metadata frame line with one source, `doc1.pdf`. -/
def metaFrameLine : String :=
  "data: \x7b\"type\":\"metadata\",\"sources\":[\x7b\"source\":\"doc1.pdf\"\x7d]\x7d"

/-- The source carried by `metaFrameLine`. -/
def docSource : Source := { source := some "doc1.pdf", url := none, title := none, author := none }

/-- A source with a URL locator. -/
def urlSource : Source :=
  { source := none, url := some "https://example.com/a.pdf", title := some "T", author := none }

/-- A source whose `url` field is present but holds the empty string. -/
def emptyUrlSource : Source := { source := some "doc2.pdf", url := some "", title := none, author := none }

/-- A response body whose `detail` field is present but empty. -/
def emptyDetailBody : Json := Json.obj [("detail", Json.str "")]

/-- A response body with a non-empty `detail` field. -/
def boomDetailBody : Json := Json.obj [("detail", Json.str "boom")]

end BedrockChat

namespace BedrockChat

/-! ### String helper lemmas -/

/-- Data of an appended string is the appended data. -/
theorem strData_append (a b : String) : (a ++ b).data = a.data ++ b.data := by
  obtain ⟨x⟩ := a; obtain ⟨y⟩ := b; rfl

/-- Length of an appended string is the sum of the lengths. -/
theorem strLength_append (a b : String) : (a ++ b).length = a.length + b.length := by
  show (a ++ b).data.length = a.data.length + b.data.length
  rw [strData_append, List.length_append]

/-- String append is associative. -/
theorem strAppend_assoc (a b c : String) : a ++ b ++ c = a ++ (b ++ c) := by
  obtain ⟨x⟩ := a; obtain ⟨y⟩ := b; obtain ⟨z⟩ := c
  show String.mk (x ++ y ++ z) = String.mk (x ++ (y ++ z))
  rw [List.append_assoc]

/-- Appending the empty string on the right is the identity. -/
theorem strAppend_empty (a : String) : a ++ "" = a := by
  obtain ⟨x⟩ := a
  show String.mk (x ++ []) = String.mk x
  rw [List.append_nil]

/-- Appending the empty string on the left is the identity. -/
theorem strEmpty_append (a : String) : "" ++ a = a := by
  obtain ⟨x⟩ := a; rfl

/-- A string with positive length is not the empty string. -/
theorem strNe_empty_of_length_pos (s : String) (h : 0 < s.length) : s ≠ "" := by
  intro e; rw [e] at h; exact Nat.lt_irrefl 0 h

/-! ### Helper lemmas about line splitting and the line loop -/

/-- Splitting a newline-terminated line off the front of a character stream. -/
theorem splitNl_line_append (l : List Char) (r : List Char) (h : '\n' ∉ l) :
    splitCh '\n' (l ++ '\n' :: r) = l :: splitCh '\n' r := by
  induction l with
  | nil => simp [splitCh]
  | cons c l ih =>
    have hc : c ≠ '\n' := fun e => h (e ▸ List.mem_cons_self c l)
    have hl : '\n' ∉ l := fun m => h (List.mem_cons_of_mem c m)
    simp only [List.cons_append, splitCh, if_neg hc, List.append_eq]
    rw [ih hl]

/-- Splitting the concatenation of newline-terminated lines recovers the
lines plus a final empty line. -/
theorem splitNl_units (ls : List (List Char)) (h : ∀ l ∈ ls, '\n' ∉ l) :
    splitCh '\n' ((ls.map (fun l => l ++ ['\n'])).flatten) = ls ++ [[]] := by
  induction ls with
  | nil => simp [splitCh]
  | cons l ls ih =>
    have h1 : '\n' ∉ l := h l (List.mem_cons_self l ls)
    have h2 : ∀ x ∈ ls, '\n' ∉ x := fun x hx => h x (List.mem_cons_of_mem l hx)
    calc splitCh '\n' (((l :: ls).map (fun l => l ++ ['\n'])).flatten)
        = splitCh '\n' (l ++ '\n' :: (ls.map (fun l => l ++ ['\n'])).flatten) := by
          simp [List.append_assoc]
      _ = l :: splitCh '\n' ((ls.map (fun l => l ++ ['\n'])).flatten) := splitNl_line_append l _ h1
      _ = l :: (ls ++ [[]]) := by rw [ih h2]

/-- The empty line carries no event and leaves the state unchanged. -/
theorem handleLine_nil (md : String → String) (st : StreamSt) : handleLine md st [] = st := rfl

/-- A line that decodes to an event is handled by the event dispatch. -/
theorem handleLine_of_event (md : String → String) (st : StreamSt) (l : List Char)
    (ev : SSEEvent) (h : lineEvent l = some ev) : handleLine md st l = handleEvent md st ev := by
  simp [handleLine, h]

/-- A line that decodes to no event (no marker, or unparseable payload)
leaves the state unchanged. -/
theorem handleLine_of_none (md : String → String) (st : StreamSt) (l : List Char)
    (h : lineEvent l = none) : handleLine md st l = st := by
  simp [handleLine, h]

theorem runLines_append (md : String → String) (st : StreamSt) (a b : List (List Char)) :
    runLines md st (a ++ b) = runLines md (runLines md st a) b :=
  List.foldl_append _ _ _ _

/-- Processing a chunk made of whole newline-terminated lines processes
exactly those lines. -/
theorem runChunk_units (md : String → String) (st : StreamSt) (g : List (List Char))
    (h : ∀ l ∈ g, '\n' ∉ l) : runChunk md st (chunkOfLines g) = runLines md st g := by
  show runLines md st (splitCh '\n' ((g.map (fun l => l ++ ['\n'])).flatten)) = runLines md st g
  rw [splitNl_units g h, runLines_append]
  exact handleLine_nil md _

/-- Processing any line-aligned chunking of a stream processes the full line
list, independently of the grouping. -/
theorem runChunks_units (md : String → String) (groups : List (List (List Char)))
    (h : ∀ l ∈ groups.flatten, '\n' ∉ l) :
    ∀ st : StreamSt, runChunks md st (groups.map chunkOfLines) = runLines md st groups.flatten := by
  induction groups with
  | nil => intro st; rfl
  | cons g gs ih =>
    intro st
    have hg : ∀ l ∈ g, '\n' ∉ l := fun l hl => h l (by simp [List.mem_flatten]; exact Or.inl hl)
    have hgs : ∀ l ∈ gs.flatten, '\n' ∉ l := fun l hl => h l (by simp [List.mem_flatten] at hl ⊢; exact Or.inr hl)
    show runChunks md (runChunk md st (chunkOfLines g)) (gs.map chunkOfLines)
        = runLines md st (g ++ gs.flatten)
    rw [runChunk_units md st g hg, runLines_append, ih hgs]

/-! ### Helper lemmas about the content branch -/

theorem contentCreate_fullResponse (st : StreamSt) :
    (contentCreate st).2.fullResponse = st.cyc.fullResponse := by
  unfold contentCreate; split <;> simp

theorem contentCreate_sources (st : StreamSt) :
    (contentCreate st).2.sources = st.cyc.sources := by
  unfold contentCreate; split <;> simp

theorem contentStep_fullResponse (md : String → String) (st : StreamSt) (t : String) :
    (contentStep md st t).cyc.fullResponse = st.cyc.fullResponse ++ t := by
  unfold contentStep
  simp [contentCreate_fullResponse]

theorem contentStep_sources (md : String → String) (st : StreamSt) (t : String) :
    (contentStep md st t).cyc.sources = st.cyc.sources := by
  unfold contentStep
  simp [contentCreate_sources]

theorem contentStep_messages (md : String → String) (st : StreamSt) (t : String) :
    (contentStep md st t).messages = st.messages := by
  unfold contentStep; simp

/-- When the response container already exists, the content branch appends
the delta and rewrites the container html from the full current state. -/
theorem contentStep_of_created (md : String → String) (st : StreamSt) (t : String) (rid : Nat)
    (h1 : st.cyc.hasCreatedResponseDiv = true) (h2 : st.cyc.responseDiv = some rid) :
    contentStep md st t =
      { dom := setNodeHtml st.dom rid
          (streamingContentHtml md (st.cyc.fullResponse ++ t) st.cyc.sources)
        messages := st.messages
        cyc := { st.cyc with fullResponse := st.cyc.fullResponse ++ t } } := by
  unfold contentStep contentCreate
  simp [h1, h2]

/-- Accumulation across a run of content events: the final accumulated text
is the starting text followed by the deltas in arrival order. -/
theorem runLines_content_fullResponse (md : String → String) (ls : List (List Char))
    (ts : List String)
    (hf : List.Forall₂ (fun l t => lineEvent l = some (SSEEvent.content t)) ls ts) :
    ∀ st : StreamSt,
      (runLines md st ls).cyc.fullResponse = st.cyc.fullResponse ++ joinAll ts := by
  induction hf with
  | nil => intro st; exact (strAppend_empty _).symm
  | @cons l t ls ts hP _ ih =>
    intro st
    show (runLines md (handleLine md st l) ls).cyc.fullResponse = _
    rw [handleLine_of_event md st l _ hP]
    show (runLines md (contentStep md st t) ls).cyc.fullResponse = _
    rw [ih, contentStep_fullResponse, strAppend_assoc]
    rfl

end BedrockChat

namespace BedrockChat

/-! ### Helper lemmas about the response container html -/

theorem setNodeHtml_setNodeHtml (d : Dom) (i : Nat) (h1 h2 : String) :
    setNodeHtml (setNodeHtml d i h1) i h2 = setNodeHtml d i h2 := by
  unfold setNodeHtml
  simp only [List.map_map]
  congr 1
  apply List.map_congr_left
  intro n _
  by_cases hb : n.id = i
  · simp [hb]
  · simp [hb]

theorem contentStep_of_created_cyc (md : String → String) (st : StreamSt) (t : String) (rid : Nat)
    (h1 : st.cyc.hasCreatedResponseDiv = true) (h2 : st.cyc.responseDiv = some rid) :
    (contentStep md st t).cyc.hasCreatedResponseDiv = true ∧
    (contentStep md st t).cyc.responseDiv = some rid := by
  rw [contentStep_of_created md st t rid h1 h2]
  exact ⟨h1, h2⟩

/-- Folding a non-empty run of content events over a state that already owns
a response container: the deltas accumulate, and the container html ends up
as one single render from the final accumulated state. -/
theorem runLines_content_render (md : String → String) (ls : List (List Char)) (ts : List String)
    (hf : List.Forall₂ (fun l t => lineEvent l = some (SSEEvent.content t)) ls ts) :
    ∀ st : StreamSt, ∀ rid : Nat,
      st.cyc.hasCreatedResponseDiv = true → st.cyc.responseDiv = some rid → ls ≠ [] →
      (runLines md st ls).dom =
        setNodeHtml st.dom rid
          (streamingContentHtml md (st.cyc.fullResponse ++ joinAll ts) st.cyc.sources) := by
  induction hf with
  | nil => intro st rid _ _ hne; exact absurd rfl hne
  | @cons l t ls ts hP hf ih =>
    intro st rid h1 h2 _
    show (runLines md (handleLine md st l) ls).dom = _
    rw [handleLine_of_event md st l _ hP]
    have he : handleEvent md st (SSEEvent.content t) = contentStep md st t := rfl
    rw [he]
    have hc1 : (contentStep md st t).cyc.hasCreatedResponseDiv = true := by
      rw [contentStep_of_created md st t rid h1 h2]; exact h1
    have hd1 : (contentStep md st t).cyc.responseDiv = some rid := by
      rw [contentStep_of_created md st t rid h1 h2]; exact h2
    cases hf with
    | nil =>
      show (contentStep md st t).dom = _
      rw [contentStep_of_created md st t rid h1 h2]
      have hjt : joinAll [t] = t := strAppend_empty t
      rw [hjt]
    | @cons l2 t2 ls2 ts2 hP2 hf2 =>
      rw [ih (contentStep md st t) rid hc1 hd1 (by simp)]
      rw [contentStep_fullResponse, contentStep_sources]
      rw [contentStep_of_created md st t rid h1 h2]
      show setNodeHtml (setNodeHtml st.dom rid _) rid _ = _
      rw [setNodeHtml_setNodeHtml, strAppend_assoc]
      rfl

/-! ### Helper lemmas about the citation renderer -/

theorem mapIdxFrom_length (f : Nat → α → β) (k : Nat) (l : List α) :
    (mapIdxFrom f k l).length = l.length := by
  induction l generalizing k with
  | nil => rfl
  | cons x xs ih => simp [mapIdxFrom, ih]

theorem mapIdxFrom_get (f : Nat → α → β) (l : List α) :
    ∀ (k i : Nat) (h : i < (mapIdxFrom f k l).length) (h2 : i < l.length),
      (mapIdxFrom f k l).get ⟨i, h⟩ = f (k + i) (l.get ⟨i, h2⟩) := by
  induction l with
  | nil => intro k i h _; simp [mapIdxFrom] at h
  | cons x xs ih =>
    intro k i h h2
    cases i with
    | zero => simp [mapIdxFrom]
    | succ j =>
      have hj : j < (mapIdxFrom f (k + 1) xs).length := by
        simpa [mapIdxFrom] using h
      have hj2 : j < xs.length := by simpa using h2
      show (mapIdxFrom f (k + 1) xs).get ⟨j, hj⟩ = _
      rw [ih (k + 1) j hj hj2]
      congr 1
      omega

/-- A citation marker is never the empty string. -/
theorem citationMarkerHtml_ne_empty (i : Nat) (s : Source) : citationMarkerHtml i s ≠ "" := by
  apply strNe_empty_of_length_pos
  unfold citationMarkerHtml
  split
  · rw [strLength_append]
    have : ("</a>" : String).length = 4 := rfl
    omega
  · rw [strLength_append, strLength_append]
    have : ("<span class=\"citation-number\">" : String).length = 30 := rfl
    omega

/-- Joining a list whose head is non-empty with any separator is non-empty. -/
theorem joinSep_ne_empty (sep : String) (x : String) (xs : List String) (hx : x ≠ "") :
    joinSep sep (x :: xs) ≠ "" := by
  cases xs with
  | nil => exact hx
  | cons y ys =>
    apply strNe_empty_of_length_pos
    show 0 < (x ++ sep ++ joinSep sep (y :: ys)).length
    rw [strLength_append, strLength_append]
    have hlen : 0 < x.length := by
      rcases Nat.eq_zero_or_pos x.length with hz | hp
      · exfalso
        apply hx
        obtain ⟨d⟩ := x
        cases d with
        | nil => rfl
        | cons c cs => simp [String.length] at hz
      · exact hp
    omega

/-- On a non-empty source list, `addInlineCitations` appends the space-joined
marker block after the content, unconditionally in the content. -/
theorem addInlineCitations_append (content : String) (sources : List Source)
    (hne : sources ≠ []) :
    addInlineCitations content sources = content ++ " " ++ joinSep " " (citationMarkers sources) := by
  match sources, hne with
  | s0 :: rest, _ =>
    have hjoin : joinSep " " (citationMarkers (s0 :: rest)) ≠ "" := by
      have : citationMarkers (s0 :: rest)
          = citationMarkerHtml 0 s0 :: mapIdxFrom citationMarkerHtml 1 rest := rfl
      rw [this]
      exact joinSep_ne_empty " " _ _ (citationMarkerHtml_ne_empty 0 s0)
    show addInlineCitations content (s0 :: rest) = _
    unfold addInlineCitations
    simp only [List.isEmpty_cons, Bool.false_eq_true, if_false, if_neg hjoin]

end BedrockChat

namespace BedrockChat

/-! ### Remaining helper lemmas -/

/-- The newline-freeness half of the decoded-content hypothesis, as a
pointwise property of the line list. -/
theorem forall₂_content_noNewline {l1 : List (List Char)} {l2 : List String}
    (h : List.Forall₂ (fun l t => lineEvent l = some (SSEEvent.content t) ∧ '\n' ∉ l) l1 l2) :
    ∀ a ∈ l1, '\n' ∉ a := by
  induction h with
  | nil => intro a ha; cases ha
  | cons hR hf ih =>
    intro a ha
    rcases List.mem_cons.mp ha with rfl | hm
    · exact hR.2
    · exact ih _ hm

theorem runSteps_append (md : String → String) (st : StreamSt) (a b : List StreamStep) :
    runSteps md st (a ++ b) = runSteps md (runSteps md st a) b :=
  List.foldl_append _ _ _ _

/-- Source display only toggles the panel; the message container is
untouched. -/
theorem visibleHtmls_displaySources (S : List Source) (d : Dom) :
    visibleHtmls (displaySourcesWithReferences S d) = visibleHtmls d := by
  unfold displaySourcesWithReferences
  split <;> rfl

end BedrockChat

namespace BedrockChat

/-! ### The claims -/

/-- Claim C1 (code behavior at the failing input): the spec says an `error`
frame after partial content must stop the read, surface a visible error
bubble, and keep the partial text out of history. The code instead throws
`new Error(data.message)` inside the same `try` whose `catch` (line 525)
only logs parse failures, so the error frame is swallowed: with frames
`content Hel`, `error boom`, `content lo` the error frame decodes to a
genuine Error event, yet reading continues (the later `lo` is applied), the
only visible message is the assistant bubble `Hello` rather than any error
bubble, and the accumulated partial text is committed to history. -/
theorem errorFrameSwallowed :
    lineEvent errorFrameLine.data = some (SSEEvent.error "boom")
    ∧ (sendStreamingOk mdId initialDom [] [StreamStep.chunk errorAfterPartialChunk]).messages
        = [{ role := "assistant", content := "Hello" }]
    ∧ visibleHtmls (sendStreamingOk mdId initialDom [] [StreamStep.chunk errorAfterPartialChunk]).dom
        = ["Hello"]
    ∧ (sendStreamingOk mdId initialDom [] [StreamStep.chunk errorAfterPartialChunk]).cyc.fullResponse
        = "Hello" := by
  refine ⟨by decide, by decide, by decide, by decide⟩

/-- Claim C2 (amended): for content frames carrying deltas t1..tn, the final
accumulated text is t1+...+tn in arrival order for every chunking of the
byte stream whose boundaries fall on line boundaries; the grouping of whole
lines into chunks is irrelevant. (Mid-line splits drop frames, see the
counterexample.) -/
theorem lineAlignedAccumulation (md : String → String) (st : StreamSt)
    (groups : List (List (List Char))) (ts : List String)
    (h : List.Forall₂ (fun l t => lineEvent l = some (SSEEvent.content t) ∧ '\n' ∉ l)
          groups.flatten ts) :
    (runChunks md st (groups.map chunkOfLines)).cyc.fullResponse
      = st.cyc.fullResponse ++ joinAll ts := by
  have hev : List.Forall₂ (fun l t => lineEvent l = some (SSEEvent.content t)) groups.flatten ts :=
    h.imp (fun _ _ hp => hp.1)
  have hnl : ∀ l ∈ groups.flatten, '\n' ∉ l := forall₂_content_noNewline h
  rw [runChunks_units md groups hnl st]
  exact runLines_content_fullResponse md groups.flatten ts hev st

/-- Witness for claim C2 at a concrete input: the deltas `Hel` and `lo`
delivered as two line-aligned chunks accumulate to `Hello`. -/
theorem lineAlignedAccumulationWitness :
    (runChunks mdId (initStream initialDom [])
        ([[helFrameLine.data], [loFrameLine.data]].map chunkOfLines)).cyc.fullResponse
      = (initStream initialDom []).cyc.fullResponse ++ joinAll ["Hel", "lo"] :=
  lineAlignedAccumulation mdId (initStream initialDom []) [[helFrameLine.data], [loFrameLine.data]]
    ["Hel", "lo"]
    (List.Forall₂.cons ⟨by decide, by decide⟩
      (List.Forall₂.cons ⟨by decide, by decide⟩ List.Forall₂.nil))

/-- Claim C2 is false as stated: the same bytes carrying the single delta
`Hello` accumulate to `Hello` when delivered as one chunk but to the empty
string when the chunk boundary falls inside the `data: ` line, because lines
are split per chunk with no cross-chunk buffer, so both fragments are
discarded (prefix check or JSON parse failure). -/
theorem midLineSplitCounterexample :
    helloChunk = helloSplitA ++ helloSplitB
    ∧ lineEvent helloFrameLine.data = some (SSEEvent.content "Hello")
    ∧ (runChunks mdId (initStream initialDom []) [helloChunk]).cyc.fullResponse = "Hello"
    ∧ (runChunks mdId (initStream initialDom []) [helloSplitA, helloSplitB]).cyc.fullResponse
        = "" := by
  refine ⟨by decide, by decide, by decide, by decide⟩

/-- Claim C3 is false as stated: starting a new chat mid-stream does not
suppress the superseded cycle. Here the new chat is started before the
first frame arrives; the abandoned cycle then appends its assistant bubble
into the new chat (destroying the welcome state) and its stream end pushes
its text into the new chat history. -/
theorem newChatCounterexample :
    (sendStreamingOk mdId initialDom [] [StreamStep.newChat, StreamStep.chunk helloChunk]).messages
        = [{ role := "assistant", content := "Hello" }]
    ∧ visibleHtmls (sendStreamingOk mdId initialDom []
          [StreamStep.newChat, StreamStep.chunk helloChunk]).dom = ["Hello"]
    ∧ (sendStreamingOk mdId initialDom []
          [StreamStep.newChat, StreamStep.chunk helloChunk]).dom.welcome = false := by
  refine ⟨by decide, by decide, by decide⟩

/-- Claim C3 (amended): starting a new chat mid-stream immediately shows the
new chat empty state (empty container with the welcome markup, cleared and
hidden source panel, empty history), but there is no epoch guard: the
superseded cycle keeps its locals and at stream end still appends its
accumulated text to the new chat history. -/
theorem newChatAmended (md : String → String) (d : Dom) (msgs : List ChatMsg)
    (steps : List StreamStep) :
    (runSteps md (initStream d msgs) (steps ++ [StreamStep.newChat])).dom.children = []
    ∧ (runSteps md (initStream d msgs) (steps ++ [StreamStep.newChat])).dom.welcome = true
    ∧ (runSteps md (initStream d msgs) (steps ++ [StreamStep.newChat])).dom.sourcesVisible = false
    ∧ (runSteps md (initStream d msgs) (steps ++ [StreamStep.newChat])).messages = []
    ∧ (finishStream (runSteps md (initStream d msgs) (steps ++ [StreamStep.newChat]))).messages
        = [{ role := "assistant"
             content := (runSteps md (initStream d msgs) (steps ++ [StreamStep.newChat])).cyc.fullResponse }] := by
  have hsplit : runSteps md (initStream d msgs) (steps ++ [StreamStep.newChat])
      = applyNewChat (runSteps md (initStream d msgs) steps) :=
    runSteps_append md (initStream d msgs) steps [StreamStep.newChat]
  rw [hsplit]
  exact ⟨rfl, rfl, rfl, rfl, rfl⟩

/-- Claim C4: given the same final accumulated text and source list, the
non-streaming path and the streaming path render byte-identical html (both
apply the markdown formatter and then the same citation-appending function),
and the non-streaming send shows exactly that html and stores the raw
answer. -/
theorem crossModeIdentical (md : String → String) (answer : String) (S : List Source) :
    regularResponseHtml md answer S = streamingContentHtml md answer S
    ∧ visibleHtmls (sendRegularOk md initialPage answer S).dom = [streamingContentHtml md answer S]
    ∧ (sendRegularOk md initialPage answer S).messages
        = [{ role := "assistant", content := answer }] := by
  refine ⟨rfl, ?_, rfl⟩
  show visibleHtmls (displaySourcesWithReferences S _) = _
  rw [visibleHtmls_displaySources]
  rfl

/-- Claim C5: on a non-empty source list of length N the renderer emits
exactly N markers, the marker at position i carries the bracketed number
i + 1, and the marker block appended after the content is the same for
every content, so the numbering cannot change between renders of one cycle
as the accumulated text grows. -/
theorem citationNumbering (sources : List Source) (hne : sources ≠ []) :
    (citationMarkers sources).length = sources.length
    ∧ (∀ (i : Nat) (h : i < (citationMarkers sources).length),
        ∃ pre post, (citationMarkers sources).get ⟨i, h⟩ = pre ++ markerText (i + 1) ++ post)
    ∧ (∀ content : String,
        addInlineCitations content sources
          = content ++ " " ++ joinSep " " (citationMarkers sources)) := by
  refine ⟨mapIdxFrom_length citationMarkerHtml 0 sources, ?_, ?_⟩
  · intro i h
    have h2 : i < sources.length := by
      have hlen : (citationMarkers sources).length = sources.length :=
        mapIdxFrom_length citationMarkerHtml 0 sources
      omega
    show ∃ pre post,
      (mapIdxFrom citationMarkerHtml 0 sources).get ⟨i, h⟩ = pre ++ markerText (i + 1) ++ post
    rw [mapIdxFrom_get citationMarkerHtml sources 0 i h h2, Nat.zero_add]
    by_cases hl : sourceIsLink (sources.get ⟨i, h2⟩) = true
    · exact ⟨linkOpenHtml (sources.get ⟨i, h2⟩), "</a>", by
        unfold citationMarkerHtml; rw [if_pos hl]⟩
    · exact ⟨"<span class=\"citation-number\">", "</span>", by
        unfold citationMarkerHtml; rw [if_neg hl]⟩
  · exact fun content => addInlineCitations_append content sources hne

/-- Witness for claim C5 at a concrete two-source list. -/
theorem citationNumberingWitness :
    (citationMarkers [docSource, urlSource]).length = 2
    ∧ addInlineCitations "Hi" [docSource, urlSource]
        = "Hi" ++ " " ++ joinSep " " (citationMarkers [docSource, urlSource]) :=
  ⟨(citationNumbering [docSource, urlSource] (by decide)).1,
   (citationNumbering [docSource, urlSource] (by decide)).2.2 "Hi"⟩

/-- Claim C6: a marker-prefixed line whose payload fails to parse, sitting
between two valid content frames, is dropped without aborting the stream:
both valid deltas still apply in order; and a line without the `data: `
marker has no effect at all. -/
theorem malformedLineSkipped (md : String → String) (st : StreamSt)
    (l1 lbad l2 : List Char) (t1 t2 : String)
    (h1 : lineEvent l1 = some (SSEEvent.content t1))
    (h2 : lineEvent l2 = some (SSEEvent.content t2))
    (hb1 : isDataLine lbad = true)
    (hb2 : Json.parse (String.mk (lbad.drop 6)) = none) :
    (runLines md st [l1, lbad, l2]).cyc.fullResponse = st.cyc.fullResponse ++ t1 ++ t2
    ∧ handleLine md st lbad = st
    ∧ (∀ l : List Char, isDataLine l = false → handleLine md st l = st) := by
  have hbe : ∀ s2 : StreamSt, handleLine md s2 lbad = s2 := by
    intro s2
    apply handleLine_of_none
    simp [lineEvent, hb1, hb2]
  refine ⟨?_, hbe st, fun l hl => handleLine_of_none md st l (by simp [lineEvent, hl])⟩
  show (handleLine md (handleLine md (handleLine md st l1) lbad) l2).cyc.fullResponse = _
  rw [handleLine_of_event md st l1 _ h1]
  have he1 : handleEvent md st (SSEEvent.content t1) = contentStep md st t1 := rfl
  rw [he1, hbe _, handleLine_of_event md _ l2 _ h2]
  have he2 : handleEvent md (contentStep md st t1) (SSEEvent.content t2)
      = contentStep md (contentStep md st t1) t2 := rfl
  rw [he2, contentStep_fullResponse, contentStep_fullResponse]

/-- Witness for claim C6: the deltas `Hel` and `lo` around the malformed
line both apply. -/
theorem malformedLineSkippedWitness :
    (runLines mdId (initStream initialDom [])
        [helFrameLine.data, malformedLine.data, loFrameLine.data]).cyc.fullResponse
      = (initStream initialDom []).cyc.fullResponse ++ "Hel" ++ "lo" :=
  (malformedLineSkipped mdId (initStream initialDom []) helFrameLine.data malformedLine.data
    loFrameLine.data "Hel" "lo" (by decide) (by decide) (by decide) rfl).1

/-- Claim C7: with an empty source list the citation renderer returns the
body unchanged, the source display hides the panel, and a metadata event
with zero sources leaves the cycle with an empty source list so every later
render appends nothing. -/
theorem emptySourcesRender (content : String) (d : Dom) (md : String → String) (st : StreamSt) :
    addInlineCitations content [] = content
    ∧ (displaySourcesWithReferences [] d).sourcesVisible = false
    ∧ (handleEvent md st (SSEEvent.metadata [])).cyc.sources = [] := by
  refine ⟨rfl, rfl, ?_⟩
  show (metadataStep st []).cyc.sources = []
  simp only [metadataStep]
  split <;> rfl

/-- Claim C8: after a metadata frame and a non-empty run of content frames,
the html held by the response container equals one single render derived
from the full final state (markdown of the whole accumulated text plus one
marker block for the current sources) - repeated re-rendering from the
growing state never duplicates markers, and re-deriving from an unchanged
state is byte-identical because the rendered html is a function of the
state alone. -/
theorem rerenderFromFullState (md : String → String) (msgs : List ChatMsg)
    (S : List Source) (lm : List Char) (ls : List (List Char)) (ts : List String)
    (hm : lineEvent lm = some (SSEEvent.metadata S))
    (hf : List.Forall₂ (fun l t => lineEvent l = some (SSEEvent.content t)) ls ts)
    (hne : ls ≠ []) :
    heapHtml (runLines md (initStream initialDom msgs) (lm :: ls)).dom 1
      = some (streamingContentHtml md (joinAll ts) S)
    ∧ (runLines md (initStream initialDom msgs) (lm :: ls)).cyc.fullResponse = joinAll ts := by
  have hstep : runLines md (initStream initialDom msgs) (lm :: ls)
      = runLines md (handleEvent md (initStream initialDom msgs) (SSEEvent.metadata S)) ls := by
    show runLines md (handleLine md (initStream initialDom msgs) lm) ls = _
    rw [handleLine_of_event md _ lm _ hm]
  have hmeta : handleEvent md (initStream initialDom msgs) (SSEEvent.metadata S)
      = { dom := { nodes := [{ id := 0, role := "assistant", html := loadingDotsHtml },
                             { id := 1, role := "assistant", html := "" }]
                   children := [1], nextId := 2, welcome := false
                   sourcesVisible := false, sourcesItems := [] }
          messages := msgs
          cyc := { fullResponse := "", sources := S, responseDiv := some 1
                   hasCreatedResponseDiv := true, loadingId := 0 } } := rfl
  rw [hstep, hmeta]
  constructor
  · rw [runLines_content_render md ls ts hf _ 1 rfl rfl hne]
    show some (streamingContentHtml md ("" ++ joinAll ts) S) = _
    rw [strEmpty_append]
  · rw [runLines_content_fullResponse md ls ts hf]
    exact strEmpty_append _

/-- Witness for claim C8: metadata with one source, then deltas `Hel` and
`lo`; the container html is a single render of `Hello` with one marker. -/
theorem rerenderFromFullStateWitness :
    heapHtml (runLines mdId (initStream initialDom [])
        [metaFrameLine.data, helFrameLine.data, loFrameLine.data]).dom 1
      = some (streamingContentHtml mdId (joinAll ["Hel", "lo"]) [docSource]) :=
  (rerenderFromFullState mdId [] [docSource] metaFrameLine.data
    [helFrameLine.data, loFrameLine.data] ["Hel", "lo"] (by decide)
    (List.Forall₂.cons (by decide) (List.Forall₂.cons (by decide) List.Forall₂.nil))
    (by decide)).1

/-- Claim C9 is false as stated: a source whose `url` field is present but
empty is rendered as a plain bracketed number, not a hyperlink, because the
code tests JavaScript truthiness of `source.url`, not presence. -/
theorem emptyUrlCounterexample :
    emptyUrlSource.url.isSome = true
    ∧ citationMarkerHtml 0 emptyUrlSource = "<span class=\"citation-number\">[1]</span>" := by
  refine ⟨by decide, by decide⟩

/-- Claim C9 (amended): a marker is a hyperlink exactly when the source has
a non-empty `url` field or its locator string starts with `http`; otherwise
it is a plain bracketed number; and all markers are appended once, as a
single trailing block after the body, never interleaved. -/
theorem markerFormsAmended (content : String) (sources : List Source) (i : Nat) (s : Source)
    (hne : sources ≠ []) :
    addInlineCitations content sources = content ++ " " ++ joinSep " " (citationMarkers sources)
    ∧ citationMarkerHtml i s =
        (if jsTruthyOpt s.url || strHasHttp (s.source.getD "") then
          linkOpenHtml s ++ markerText (i + 1) ++ "</a>"
        else "<span class=\"citation-number\">" ++ markerText (i + 1) ++ "</span>") := by
  refine ⟨addInlineCitations_append content sources hne, ?_⟩
  have hcond : sourceIsLink s = (jsTruthyOpt s.url || strHasHttp (s.source.getD "")) := by
    unfold sourceIsLink
    cases hs : s.source with
    | none => rfl
    | some v =>
      by_cases hv : v = ""
      · subst hv; rfl
      · have hb : (v != "") = true := by simp [hv]
        simp [jsTruthyOpt, hb]
  rw [show (jsTruthyOpt s.url || strHasHttp (s.source.getD "")) = sourceIsLink s from hcond.symm]
  rfl

/-- Witness for claim C9 at a concrete source with a URL locator. -/
theorem markerFormsAmendedWitness :
    addInlineCitations "x" [urlSource]
        = "x" ++ " " ++ joinSep " " (citationMarkers [urlSource])
    ∧ citationMarkerHtml 0 urlSource =
        (if jsTruthyOpt urlSource.url || strHasHttp (urlSource.source.getD "") then
          linkOpenHtml urlSource ++ markerText (0 + 1) ++ "</a>"
        else "<span class=\"citation-number\">" ++ markerText (0 + 1) ++ "</span>") :=
  markerFormsAmended "x" [urlSource] 0 urlSource (by decide)

/-- Claim C10 is false as stated: a `detail` field that is present but empty
is falsy in JavaScript, so the non-streaming path falls back to the generic
text even though the server provided a `detail` value. -/
theorem emptyDetailCounterexample :
    getField emptyDetailBody "detail" = some (Json.str "")
    ∧ regularErrorText emptyDetailBody = "Failed to get response" := ⟨rfl, rfl⟩

/-- Claim C10 (amended): on a non-2xx response the streaming path always
shows the generic text `Failed to get response` (displayed with the
`Error: ` bubble prefix), ignoring the body; the non-streaming path shows
the server `detail` text when it is present and non-empty, and falls back
to the same generic text when it is absent or empty. -/
theorem errorTextsAmended (body : Json) :
    streamingFetchErrorText body = "Failed to get response"
    ∧ catchBubbleText (streamingFetchErrorText body) = "Error: " ++ "Failed to get response"
    ∧ (∀ s : String, getField body "detail" = some (Json.str s) → s ≠ "" →
        regularErrorText body = s)
    ∧ (getField body "detail" = none → regularErrorText body = "Failed to get response")
    ∧ (getField body "detail" = some (Json.str "") →
        regularErrorText body = "Failed to get response") := by
  refine ⟨rfl, rfl, ?_, ?_, ?_⟩
  · intro s hs hne
    have ht : jsTruthy (Json.str s) = true := by simp [jsTruthy]; exact hne
    simp [regularErrorText, hs, ht, jsStringOf]
  · intro h
    simp [regularErrorText, h]
  · intro h
    simp [regularErrorText, h, jsTruthy]

/-- Witness for claim C10 at a concrete body with a non-empty detail. -/
theorem errorTextsAmendedWitness :
    streamingFetchErrorText boomDetailBody = "Failed to get response"
    ∧ regularErrorText boomDetailBody = "boom" :=
  ⟨(errorTextsAmended boomDetailBody).1,
   (errorTextsAmended boomDetailBody).2.2.1 "boom" rfl (by decide)⟩

end BedrockChat
